import Mathlib

/-!
Shallow embedding of the safety-limited agent orchestrator
(src/etl_agent/agent/safe_agent_orchestrator.py) and its tool dispatcher
(src/etl_agent/tools/agent_tools.py).

Conventions of the embedding:
* Python numbers that carry money or wall-clock time are modelled as exact
  rationals; counters are naturals.
* The wall clock (time.time()) is modelled as an explicit oracle
  `clock : Nat -> Rat` sampled at the limit check of each iteration; the
  stored start timestamp is an explicit parameter.
* The model backend (anthropic client) is modelled as a deterministic script
  `script : Nat -> ModelResponse` indexed by the number of prior model calls.
* Raised exceptions are modelled as values: handler bodies return
  `Except String String` (error = raised exception message), and
  LimitExceededError is the `LimitErr` type threaded through the loop.
* Tool handler bodies that perform I/O (storage reads, sqlite, exec) are
  abstract fields of `AgentTools`; all dispatch logic, the SQL auto-fix
  rewrite, SQL validation and every limit check are embedded concretely.
-/

namespace EtlAgent

/-- Character-wise uppercasing of a Python string (models str.upper on the
ASCII alphabet actually used by the validator). -/
def upperChars (s : String) : List Char := s.toList.map Char.toUpper

/-- Python's substring test (needle in hay) on character lists. -/
def containsSub (needle : List Char) : List Char → Bool
  | [] => needle.isPrefixOf []
  | c :: rest => needle.isPrefixOf (c :: rest) || containsSub needle rest

/-- Python's str.rstrip with an explicit strip predicate. -/
def pyRstrip (p : Char → Bool) (s : List Char) : List Char :=
  (s.reverse.dropWhile p).reverse

/-- Safety-limit configuration, from the AgentLimits dataclass. -/
structure AgentLimits where
  max_iterations : Nat
  max_claude_calls : Nat
  max_total_cost : ℚ
  max_time_seconds : Nat
  tool_limits : List (String × Nat)
  sql_max_rows : Nat
  sql_timeout_seconds : Nat
  sql_require_limit : Bool
  sql_block_keywords : List String

/-- The dataclass defaults of AgentLimits. -/
def defaultLimits : AgentLimits where
  max_iterations := 15
  max_claude_calls := 20
  max_total_cost := 2
  max_time_seconds := 120
  tool_limits :=
    [("execute_sql_query", 5), ("execute_python_code", 3), ("read_sql_code", 2),
     ("read_brb_requirements", 2), ("read_quadratura_results", 2)]
  sql_max_rows := 10000
  sql_timeout_seconds := 30
  sql_require_limit := true
  sql_block_keywords := ["DELETE", "DROP", "TRUNCATE", "UPDATE", "INSERT", "ALTER"]

/-- Execution statistics (AgentStats dataclass); tool_calls is the defaultdict
of per-tool counters, represented as an association list with default 0. -/
structure AgentStats where
  iterations : Nat
  claude_calls : Nat
  total_cost : ℚ
  tool_calls : List (String × Nat)
  start_time : ℚ

/-- AgentStats.elapsed_time: time.time() - start_time, with the clock reading
passed explicitly. -/
def AgentStats.elapsed_time (s : AgentStats) (now : ℚ) : ℚ :=
  now - s.start_time

/-- Reading a counter out of the defaultdict(int): missing keys count 0. -/
def toolCount (l : List (String × Nat)) (name : String) : Nat :=
  (l.lookup name).getD 0

/-- Incrementing a defaultdict(int) counter. -/
def bumpCount : List (String × Nat) → String → List (String × Nat)
  | [], k => [(k, 1)]
  | (a, n) :: rest, k =>
    if a = k then (a, n + 1) :: rest else (a, n) :: bumpCount rest k

/-- The LimitExceededError raised by the orchestrator, tagged with which
limit fired and the data interpolated into its message. -/
inductive LimitErr where
  | iterations (max : Nat)
  | claudeCalls (max : Nat)
  | cost (total max : ℚ)
  | timeout (elapsed : ℚ) (max : Nat)
  | toolQuota (name : String) (current limit : Nat)
  | sqlBlockedKeyword (kw : String)
  | sqlMissingLimit (maxRows : Nat)
deriving DecidableEq

/-- Plain rendering of a rational for the interpolated messages (the Python
f-string float formatting is simplified; no claim depends on it). -/
def ratStr (q : ℚ) : String := toString q.num ++ "/" ++ toString q.den

/-- The str(e) of each LimitExceededError, from the f-strings in the source. -/
def LimitErr.message : LimitErr → String
  | .iterations m => "⛔ Max iterations raggiunto (" ++ toString m ++ ")"
  | .claudeCalls m => "⛔ Max chiamate Claude raggiunto (" ++ toString m ++ ")"
  | .cost total max => "⛔ Budget superato ($" ++ ratStr total ++ "/$" ++ ratStr max ++ ")"
  | .timeout elapsed max => "⛔ Timeout (" ++ ratStr elapsed ++ "s/" ++ toString max ++ "s)"
  | .toolQuota name current limit =>
      "⛔ Tool '" ++ name ++ "' limit raggiunto (" ++ toString current ++ "/" ++ toString limit ++ ")"
  | .sqlBlockedKeyword kw => "⛔ Query SQL contiene keyword bloccata: " ++ kw
  | .sqlMissingLimit maxRows =>
      "⛔ Query SQL deve includere LIMIT (max " ++ toString maxRows ++ " righe)"

/-- SafeAgentOrchestrator._check_limits: the four global checks in source
order; `some e` models the raised LimitExceededError, `none` a normal return.
The wall-clock sample feeding elapsed_time is the explicit `now`. -/
def checkLimits (stats : AgentStats) (limits : AgentLimits) (now : ℚ) : Option LimitErr :=
  if stats.iterations ≥ limits.max_iterations then
    some (.iterations limits.max_iterations)
  else if stats.claude_calls ≥ limits.max_claude_calls then
    some (.claudeCalls limits.max_claude_calls)
  else if stats.total_cost ≥ limits.max_total_cost then
    some (.cost stats.total_cost limits.max_total_cost)
  else if stats.elapsed_time now ≥ (limits.max_time_seconds : ℚ) then
    some (.timeout (stats.elapsed_time now) limits.max_time_seconds)
  else none

/-- SafeAgentOrchestrator._check_tool_limit: per-tool quota check with the
source's default of 999 for tools absent from the configured map. -/
def checkToolLimit (name : String) (stats : AgentStats) (limits : AgentLimits) :
    Option LimitErr :=
  let limit := (limits.tool_limits.lookup name).getD 999
  let current := toolCount stats.tool_calls name
  if current ≥ limit then some (.toolQuota name current limit) else none

/-- SafeAgentOrchestrator._validate_sql: blocked-keyword substring scan over
the uppercased query (first keyword in configuration order wins), then the
LIMIT-substring requirement. -/
def validateSql (query : String) (limits : AgentLimits) : Option LimitErr :=
  let sqlUpper := upperChars query
  match limits.sql_block_keywords.find? (fun kw => containsSub kw.toList sqlUpper) with
  | some kw => some (.sqlBlockedKeyword kw)
  | none =>
    if limits.sql_require_limit && !(containsSub "LIMIT".toList sqlUpper) then
      some (.sqlMissingLimit limits.sql_max_rows)
    else none

/-- Token counts reported by the model backend (response.usage). -/
structure ModelUsage where
  input_tokens : Nat
  output_tokens : Nat

/-- COST_PER_1K_TOKENS["input"] = 0.003, as an exact rational. -/
def costPer1kInput : ℚ := 3 / 1000

/-- COST_PER_1K_TOKENS["output"] = 0.015, as an exact rational. -/
def costPer1kOutput : ℚ := 15 / 1000

/-- SafeAgentOrchestrator._estimate_cost. -/
def estimateCost (usage : ModelUsage) : ℚ :=
  (usage.input_tokens : ℚ) / 1000 * costPer1kInput
    + (usage.output_tokens : ℚ) / 1000 * costPer1kOutput

/-- A tool_input dict as passed by the model; values are restricted to the
strings that steer control flow (only the "query" entry is ever inspected by
embedded code, the rest is forwarded opaquely to handlers). -/
abbrev ToolInput := List (String × String)

/-- The dict returned by AgentTools.execute_tool: either
success/result or success/error. -/
structure ToolResult where
  success : Bool
  result : Option String
  error : Option String
deriving DecidableEq

/-- The tool handlers of AgentTools. The seven handler methods whose bodies
perform I/O or free-form text analytics are abstract fields returning
`Except String String` (error = raised exception), matching the dispatcher
contract; the run-scoped read cache is omitted because with a fixed
environment it does not change any handler's value. The embedded part of
_execute_sql_query (the LIMIT auto-fix rewrite) lives in
`AgentTools.executeSqlQuery` below, on top of the abstract sqlite execution
`sqlite_run` (final query, original input). -/
structure AgentTools where
  read_sql_code : ToolInput → Except String String
  read_brb_requirements : ToolInput → Except String String
  read_quadratura_results : ToolInput → Except String String
  list_available_etls : ToolInput → Except String String
  analyze_code_section : ToolInput → Except String String
  validate_sql_stx : ToolInput → Except String String
  execute_python_code : ToolInput → Except String String
  sqlite_run : String → ToolInput → Except String String

/-- The auto-fix prefix of AgentTools._execute_sql_query: append LIMIT 1000
when the query has no LIMIT but is a SELECT
(query.rstrip(';').rstrip() + " LIMIT 1000"). -/
def autoFixQuery (query : String) : String :=
  if !(containsSub "LIMIT".toList (upperChars query))
      && containsSub "SELECT".toList (upperChars query) then
    (pyRstrip (fun c => c.isWhitespace) (pyRstrip (fun c => c == ';') query.toList)).asString
      ++ " LIMIT 1000"
  else query

/-- AgentTools._execute_sql_query: read the mandatory "query" argument
(KeyError when absent), apply the auto-fix rewrite, then run the final query
on the in-memory database. -/
def AgentTools.executeSqlQuery (t : AgentTools) (input : ToolInput) : Except String String :=
  match input.lookup "query" with
  | none => .error "'query'"
  | some q => t.sqlite_run (autoFixQuery q) input

/-- The tool_methods dict of AgentTools.execute_tool, in source order.
(The "validate_sql_syntax" entry maps to the field validate_sql_stx.) -/
def toolMethods (t : AgentTools) : List (String × (ToolInput → Except String String)) :=
  [("read_sql_code", t.read_sql_code),
   ("read_brb_requirements", t.read_brb_requirements),
   ("read_quadratura_results", t.read_quadratura_results),
   ("list_available_etls", t.list_available_etls),
   ("analyze_code_section", t.analyze_code_section),
   ("validate_sql_syntax", t.validate_sql_stx),
   ("execute_python_code", t.execute_python_code),
   ("execute_sql_query", t.executeSqlQuery)]

/-- AgentTools.execute_tool: name lookup, handler invocation, and the uniform
result envelope; a handler-raised exception is captured into the error
envelope, so the dispatcher itself always returns a value. -/
def executeTool (t : AgentTools) (name : String) (input : ToolInput) : ToolResult :=
  match (toolMethods t).lookup name with
  | none => ⟨false, none, some ("Tool '" ++ name ++ "' non trovato")⟩
  | some h =>
    match h input with
    | .ok r => ⟨true, some r, none⟩
    | .error e => ⟨false, none, some e⟩

/-- A tools instance whose abstract handlers all fail; used to instantiate
universally quantified theorems at a concrete environment. -/
def trivialTools : AgentTools where
  read_sql_code := fun _ => .error "unavailable"
  read_brb_requirements := fun _ => .error "unavailable"
  read_quadratura_results := fun _ => .error "unavailable"
  list_available_etls := fun _ => .error "unavailable"
  analyze_code_section := fun _ => .error "unavailable"
  validate_sql_stx := fun _ => .error "unavailable"
  execute_python_code := fun _ => .error "unavailable"
  sqlite_run := fun _ _ => .error "unavailable"

/-- Content blocks of a model response / conversation turn. -/
inductive ContentBlock where
  | text (s : String)
  | toolUse (id : String) (name : String) (input : ToolInput)
  | toolResult (tool_use_id : String) (content : String)
deriving DecidableEq

/-- The stop_reason of a model response ("end_turn", "tool_use", anything
else). -/
inductive StopReason where
  | end_turn
  | tool_use
  | other (s : String)
deriving DecidableEq

/-- One response of the model backend. -/
structure ModelResponse where
  stop_reason : StopReason
  content : List ContentBlock
  usage : ModelUsage

/-- Content of one conversation turn: the initial task is a plain string,
later turns carry content-block lists. -/
inductive MsgContent where
  | str (s : String)
  | blocks (bs : List ContentBlock)
deriving DecidableEq

/-- One entry of conversation_history. -/
structure Message where
  role : String
  content : MsgContent
deriving DecidableEq

/-- The filter selecting tool_use blocks out of response.content. -/
def isToolUseBlock : ContentBlock → Bool
  | .toolUse _ _ _ => true
  | _ => false

/-- Simplified rendering of json.dumps(result) for the tool-result turn
(no claim inspects this string). -/
def dumpResult (r : ToolResult) : String :=
  if r.success then
    "\x7b\"success\": true, \"result\": \"" ++ r.result.getD "" ++ "\"\x7d"
  else
    "\x7b\"success\": false, \"error\": \"" ++ r.error.getD "" ++ "\"\x7d"

/-- The per-request body of the tool_use branch of run(): for each requested
tool_use block in order, check the per-tool quota, validate the SQL of
execute_sql_query requests carrying a "query" argument, dispatch, and bump
the tool counter. Returns the stats at the point the first
LimitExceededError is raised (earlier counter bumps persist, as with the
mutated self.stats), or the tool_result blocks on success. -/
def processTools (tools : AgentTools) (limits : AgentLimits) :
    AgentStats → List ContentBlock → AgentStats × Except LimitErr (List ContentBlock)
  | stats, [] => (stats, .ok [])
  | stats, .toolUse id name input :: rest =>
    match checkToolLimit name stats limits with
    | some e => (stats, .error e)
    | none =>
      match (if name == "execute_sql_query" && (input.lookup "query").isSome then
               validateSql ((input.lookup "query").getD "") limits
             else none) with
      | some e => (stats, .error e)
      | none =>
        let result := executeTool tools name input
        let stats' := { stats with tool_calls := bumpCount stats.tool_calls name }
        match processTools tools limits stats' rest with
        | (stats'', .error e) => (stats'', .error e)
        | (stats'', .ok blocks) =>
          (stats'', .ok (.toolResult id (dumpResult result) :: blocks))
  | stats, _ :: rest => processTools tools limits stats rest

/-- How the while-loop of run() terminated: a final end_turn answer, the
break on an unexpected stop reason, a caught LimitExceededError, or a caught
generic exception. -/
inductive LoopExit where
  | finished (text : String)
  | unexpectedStop (reason : String)
  | limited (e : LimitErr)
  | errored (msg : String)
deriving DecidableEq

/-- Mutable state of the agent loop. -/
structure LoopSt where
  stats : AgentStats
  conversation : List Message

/-- Result of the agent loop: how it exited plus the state it left behind. -/
structure LoopOut where
  exit : LoopExit
  stats : AgentStats
  conversation : List Message

/-- The while-loop of SafeAgentOrchestrator.run. One pass: bump the
iteration counter, run the global limit checks (clock sampled at the current
iteration index), call the model, account the call and its estimated cost,
then branch on stop_reason exactly as the source does. The fuel argument is
an upper bound on loop passes (run() supplies max_iterations + 1, which the
iteration check makes sufficient); an exhausted-fuel exit is reported as a
generic error and is unreachable from run(). -/
def loop (limits : AgentLimits) (tools : AgentTools) (script : Nat → ModelResponse)
    (clock : Nat → ℚ) : Nat → LoopSt → LoopOut
  | 0, st => ⟨.errored "fuel exhausted", st.stats, st.conversation⟩
  | fuel + 1, st =>
    let stats1 := { st.stats with iterations := st.stats.iterations + 1 }
    match checkLimits stats1 limits (clock stats1.iterations) with
    | some e => ⟨.limited e, stats1, st.conversation⟩
    | none =>
      let response := script stats1.claude_calls
      let stats2 := { stats1 with
        claude_calls := stats1.claude_calls + 1,
        total_cost := stats1.total_cost + estimateCost response.usage }
      match response.stop_reason with
      | .end_turn =>
        match response.content.head? with
        | some (.text s) => ⟨.finished s, stats2, st.conversation⟩
        | _ => ⟨.errored "list index out of range", stats2, st.conversation⟩
      | .tool_use =>
        match processTools tools limits stats2 (response.content.filter isToolUseBlock) with
        | (stats3, .error e) => ⟨.limited e, stats3, st.conversation⟩
        | (stats3, .ok results) =>
          loop limits tools script clock fuel
            ⟨stats3, st.conversation ++
              [⟨"assistant", .blocks response.content⟩, ⟨"user", .blocks results⟩]⟩
      | .other s => ⟨.unexpectedStop s, stats2, st.conversation⟩

/-- The final_response value assembled by the except/return part of run(). -/
def finalResponseOf : LoopExit → Option String
  | .finished t => some t
  | .unexpectedStop _ => none
  | .limited e => some ("Agent fermato: " ++ e.message)
  | .errored m => some ("Errore: " ++ m)

/-- The result dict of run(). -/
structure RunResult where
  success : Bool
  response : Option String
  stats_iterations : Nat
  stats_claude_calls : Nat
  stats_total_cost : ℚ
  stats_elapsed_time : ℚ
  stats_tool_calls : List (String × Nat)
  conversation_history : List Message

/-- Initial loop state: fresh stats and the task as the sole user turn. -/
def initState (task : String) (startTime : ℚ) : LoopSt :=
  ⟨⟨0, 0, 0, [], startTime⟩, [⟨"user", .str task⟩]⟩

/-- SafeAgentOrchestrator.run: run the loop and assemble the result dict.
success is final_response is not None, verbatim from the source. The
elapsed_time entry is the final wall-clock read, modelled as the clock
sample following the last limit check. -/
def run (limits : AgentLimits) (tools : AgentTools) (script : Nat → ModelResponse)
    (clock : Nat → ℚ) (task : String) (startTime : ℚ) : RunResult :=
  let out := loop limits tools script clock (limits.max_iterations + 1)
    (initState task startTime)
  let fr := finalResponseOf out.exit
  { success := fr.isSome
    response := fr
    stats_iterations := out.stats.iterations
    stats_claude_calls := out.stats.claude_calls
    stats_total_cost := out.stats.total_cost
    stats_elapsed_time := out.stats.elapsed_time (clock (out.stats.iterations + 1))
    stats_tool_calls := out.stats.tool_calls
    conversation_history := out.conversation }

/-- The default limits with max_iterations set to 0, for the immediate-abort
scenarios. -/
def zeroIterLimits : AgentLimits :=
  { defaultLimits with max_iterations := 0 }

/-- The limit configuration of the scripted quota scenario: tool t capped at
N, every global limit generous enough that only the tool quota can fire
(cost stays 0 on a zero-usage script, the clock oracle is constant). -/
def scenarioLimits (t : String) (N : Nat) : AgentLimits :=
  { defaultLimits with
    max_iterations := N + 2
    max_claude_calls := N + 2
    max_total_cost := 1
    max_time_seconds := 1
    tool_limits := [(t, N)] }

/-- A scripted backend that requests the same tool once per turn, with zero
reported token usage. -/
def repeatToolScript (t : String) : Nat → ModelResponse :=
  fun _ => ⟨.tool_use, [.toolUse "tu" t []], ⟨0, 0⟩⟩

/-! ## Helper lemmas -/

/-- Occurrence of kw as a whitespace-delimited token of the uppercased query:
an infix occurrence whose neighbours (when they exist) are whitespace. -/
def UpperTokenIn (kw q : String) : Prop :=
  ∃ pre post : List Char,
    upperChars q = pre ++ kw.toList ++ post ∧
      pre.getLast?.all (fun c => c.isWhitespace) = true ∧
      post.head?.all (fun c => c.isWhitespace) = true

theorem containsSub_of_isPrefixOf {needle hay : List Char}
    (h : needle.isPrefixOf hay = true) : containsSub needle hay = true := by
  cases hay with
  | nil => simpa [containsSub] using h
  | cons c rest => simp [containsSub, h]

theorem containsSub_cons {needle : List Char} (c : Char) {rest : List Char}
    (h : containsSub needle rest = true) : containsSub needle (c :: rest) = true := by
  simp [containsSub, h]

theorem containsSub_append (needle pre post : List Char) :
    containsSub needle (pre ++ needle ++ post) = true := by
  induction pre with
  | nil =>
    simp only [List.nil_append]
    exact containsSub_of_isPrefixOf
      (List.isPrefixOf_iff_prefix.2 (List.prefix_append _ _))
  | cons c cs ih =>
    simp only [List.cons_append]
    exact containsSub_cons c ih

theorem containsSub_of_token {kw q : String} (h : UpperTokenIn kw q) :
    containsSub kw.toList (upperChars q) = true := by
  obtain ⟨pre, post, hq, -, -⟩ := h
  rw [hq]
  exact containsSub_append _ _ _

/-- Unfolding lemma for validateSql. -/
theorem validateSql_def (q : String) (limits : AgentLimits) :
    validateSql q limits =
      match List.find? (fun kw => containsSub kw.toList (upperChars q))
          limits.sql_block_keywords with
      | some kw => some (.sqlBlockedKeyword kw)
      | none =>
        if limits.sql_require_limit && !(containsSub "LIMIT".toList (upperChars q)) then
          some (.sqlMissingLimit limits.sql_max_rows)
        else none := rfl

/-! ## Claims about the SQL validator (C2) -/

/-- Claim C2: validate_sql fails with a blocked-keyword error whenever the
uppercased query contains a blocked keyword as a token (the scan is in fact
a substring scan, so a token occurrence always trips it), fails with the
missing-row-limit error when no blocked keyword occurs, a row limit is
required and no LIMIT occurs, and behaves as stated on the three concrete
example queries against the default policy. -/
theorem validate_sql_spec :
    (∀ (q : String) (limits : AgentLimits) (kw : String),
        kw ∈ limits.sql_block_keywords → UpperTokenIn kw q →
        ∃ kw', kw' ∈ limits.sql_block_keywords ∧
          validateSql q limits = some (.sqlBlockedKeyword kw'))
    ∧ (∀ (q : String) (limits : AgentLimits),
        (∀ kw ∈ limits.sql_block_keywords, containsSub kw.toList (upperChars q) = false) →
        limits.sql_require_limit = true →
        containsSub "LIMIT".toList (upperChars q) = false →
        validateSql q limits = some (.sqlMissingLimit limits.sql_max_rows))
    ∧ validateSql "SELECT * FROM vendite" defaultLimits = some (.sqlMissingLimit 10000)
    ∧ validateSql "SELECT * FROM vendite LIMIT 10" defaultLimits = none
    ∧ validateSql "DELETE FROM vendite LIMIT 10" defaultLimits =
        some (.sqlBlockedKeyword "DELETE") := by
  refine ⟨?_, ?_, by decide, by decide, by decide⟩
  · intro q limits kw hmem htok
    have hsub := containsSub_of_token htok
    cases hfind : List.find? (fun kw => containsSub kw.toList (upperChars q))
        limits.sql_block_keywords with
    | none =>
      refine absurd hsub ?_
      intro hcon
      have := List.find?_eq_none.mp hfind kw hmem
      exact this hcon
    | some kw' =>
      refine ⟨kw', List.mem_of_find?_eq_some hfind, ?_⟩
      simp only [validateSql_def, hfind]
  · intro q limits hall hreq hlim
    have hfind : List.find? (fun kw => containsSub kw.toList (upperChars q))
        limits.sql_block_keywords = none := by
      refine List.find?_eq_none.mpr fun x hx h => ?_
      have h' : containsSub x.toList (upperChars q) = true := h
      rw [hall x hx] at h'
      exact Bool.false_ne_true h'
    simp only [validateSql_def, hfind, hreq, hlim]
    simp

/-- Witness for C2: the token-level blocked-keyword implication fires on a
concrete lowercase DROP query. -/
theorem validate_sql_spec_witness :
    ∃ kw', kw' ∈ defaultLimits.sql_block_keywords ∧
      validateSql "drop table t limit 5" defaultLimits = some (.sqlBlockedKeyword kw') :=
  validate_sql_spec.1 "drop table t limit 5" defaultLimits "DROP" (by decide)
    ⟨[], " TABLE T LIMIT 5".toList, by decide, by decide, by decide⟩

/-! ## Claims about the dispatcher (C5) -/

/-- Claim C5: execute_tool is a total function: an unregistered name yields
the success-false error envelope as a value, a handler-raised exception is
captured into the error envelope, and a successful handler outcome is
wrapped into the success envelope. -/
theorem execute_tool_total_spec :
    ∀ (t : AgentTools) (name : String) (input : ToolInput),
      ((toolMethods t).lookup name = none →
        executeTool t name input =
          ⟨false, none, some ("Tool '" ++ name ++ "' non trovato")⟩)
      ∧ (∀ h r, (toolMethods t).lookup name = some h → h input = .ok r →
          executeTool t name input = ⟨true, some r, none⟩)
      ∧ (∀ h e, (toolMethods t).lookup name = some h → h input = .error e →
          executeTool t name input = ⟨false, none, some e⟩) := by
  intro t name input
  refine ⟨fun hnone => ?_, fun h r hl hr => ?_, fun h e hl he => ?_⟩
  · simp [executeTool, hnone]
  · simp [executeTool, hl, hr]
  · simp [executeTool, hl, he]

/-- Witness for C5: dispatching an unregistered name returns the error
envelope. -/
theorem execute_tool_total_spec_witness :
    executeTool trivialTools "nope" [] =
      ⟨false, none, some ("Tool '" ++ "nope" ++ "' non trovato")⟩ :=
  (execute_tool_total_spec trivialTools "nope" []).1 rfl

/-! ## Claims about the per-tool quota check (C6) -/

/-- Claim C6 (amended): check_tool_limit fails exactly when the tool's count
has reached its configured limit; for a tool absent from the quota map the
default limit is the source's finite 999, not unbounded. -/
theorem check_tool_limit_spec :
    ∀ (name : String) (stats : AgentStats) (limits : AgentLimits),
      (∀ N, limits.tool_limits.lookup name = some N →
        ((checkToolLimit name stats limits).isSome = true ↔
          N ≤ toolCount stats.tool_calls name))
      ∧ (limits.tool_limits.lookup name = none →
        ((checkToolLimit name stats limits).isSome = true ↔
          999 ≤ toolCount stats.tool_calls name)) := by
  intro name stats limits
  constructor
  · intro N hN
    simp only [checkToolLimit, hN, Option.getD_some, ge_iff_le]
    split <;> simp_all
  · intro h0
    simp only [checkToolLimit, h0, Option.getD_none, ge_iff_le]
    split <;> simp_all

/-- Counterexample to C6 as stated: a tool absent from the configured quota
map does fail the check once its running count reaches the source's default
limit of 999 (the default is finite, not unbounded). -/
theorem check_tool_limit_default_counterexample :
    defaultLimits.tool_limits.lookup "foo" = none ∧
      checkToolLimit "foo" ⟨0, 0, 0, [("foo", 999)], 0⟩ defaultLimits =
        some (.toolQuota "foo" 999 999) := by
  exact ⟨by decide, by decide⟩

/-- Witness for C6: the configured limit 5 of execute_sql_query makes the
check fail at count 5. -/
theorem check_tool_limit_spec_witness :
    (checkToolLimit "execute_sql_query"
      ⟨0, 0, 0, [("execute_sql_query", 5)], 0⟩ defaultLimits).isSome = true :=
  ((check_tool_limit_spec "execute_sql_query"
      ⟨0, 0, 0, [("execute_sql_query", 5)], 0⟩ defaultLimits).1 5 (by decide)).2
    (by decide)

/-! ## Claims about the global limit check (C7) -/

/-- Claim C7 (amended): the global limit check is a pure function of the
stats snapshot, the policy thresholds and the wall-clock reading: any two
invocations agreeing on the compared quantities (iterations, model calls,
cost, and elapsed time) yield the same verdict — in particular the verdict
does not depend on the tool counters or on the raw start timestamp. -/
theorem check_limits_deterministic :
    ∀ (s₁ s₂ : AgentStats) (limits : AgentLimits) (t₁ t₂ : ℚ),
      s₁.iterations = s₂.iterations → s₁.claude_calls = s₂.claude_calls →
      s₁.total_cost = s₂.total_cost → s₁.elapsed_time t₁ = s₂.elapsed_time t₂ →
      checkLimits s₁ limits t₁ = checkLimits s₂ limits t₂ := by
  intro s₁ s₂ limits t₁ t₂ h1 h2 h3 h4
  simp [checkLimits, h1, h2, h3, h4]

/-- Counterexample to C7 as stated: with the stats snapshot and the policy
both unchanged, the verdict of the global limit check still flips as the
wall clock advances past the timeout, because elapsed_time reads the
clock — the check is not a function of the stats/policy pair alone. -/
theorem check_limits_clock_counterexample :
    checkLimits ⟨0, 0, 0, [], 0⟩ defaultLimits 5 = none ∧
      checkLimits ⟨0, 0, 0, [], 0⟩ defaultLimits 500 = some (.timeout 500 120) ∧
      checkLimits ⟨0, 0, 0, [], 0⟩ defaultLimits 5 ≠
        checkLimits ⟨0, 0, 0, [], 0⟩ defaultLimits 500 := by
  have h1 : checkLimits ⟨0, 0, 0, [], 0⟩ defaultLimits 5 = none := by
    norm_num [checkLimits, AgentStats.elapsed_time, defaultLimits]
  have h2 : checkLimits ⟨0, 0, 0, [], 0⟩ defaultLimits 500 = some (.timeout 500 120) := by
    norm_num [checkLimits, AgentStats.elapsed_time, defaultLimits]
  exact ⟨h1, h2, by rw [h1, h2]; exact fun habs => Option.noConfusion habs⟩

/-- Witness for C7: two invocations with different tool counters and start
timestamps but equal compared quantities agree. -/
theorem check_limits_deterministic_witness :
    checkLimits ⟨1, 2, 1 / 2, [("a", 3)], 0⟩ defaultLimits 7 =
      checkLimits ⟨1, 2, 1 / 2, [], 100⟩ defaultLimits 107 :=
  check_limits_deterministic ⟨1, 2, 1 / 2, [("a", 3)], 0⟩ ⟨1, 2, 1 / 2, [], 100⟩
    defaultLimits 7 107 rfl rfl rfl (by norm_num [AgentStats.elapsed_time])

/-! ## Claims about the cost estimator (C9) -/

/-- Claim C9: the cost estimate is (input_tokens/1000) times the input rate
0.003 plus (output_tokens/1000) times the output rate 0.015; at 1000/1000
tokens it equals exactly 0.018; and the loop adds the exact estimate to
total_cost (one end_turn pass accumulates precisely the estimate, with no
rounding). -/
theorem estimate_cost_spec :
    (∀ u : ModelUsage, estimateCost u =
        (u.input_tokens : ℚ) / 1000 * (3 / 1000) +
          (u.output_tokens : ℚ) / 1000 * (15 / 1000))
    ∧ estimateCost ⟨1000, 1000⟩ = 18 / 1000
    ∧ (∀ (limits : AgentLimits) (tools : AgentTools) (u : ModelUsage)
        (task answer : String) (start : ℚ),
        1 < limits.max_iterations → 0 < limits.max_claude_calls →
        0 < limits.max_total_cost → 0 < limits.max_time_seconds →
        (run limits tools (fun _ => ⟨.end_turn, [.text answer], u⟩) (fun _ => start)
            task start).stats_total_cost = estimateCost u) := by
  refine ⟨fun u => rfl, by norm_num [estimateCost, costPer1kInput, costPer1kOutput], ?_⟩
  intro limits tools u task answer start h1 h2 h3 h4
  have hchk : ∀ s : AgentStats, s.iterations = 1 → s.claude_calls = 0 →
      s.total_cost = 0 → s.start_time = start → checkLimits s limits start = none := by
    intro s hi hc ht hs
    simp only [checkLimits, AgentStats.elapsed_time, hi, hc, ht, hs]
    rw [if_neg (by omega), if_neg (by omega), if_neg (not_le.mpr h3),
        if_neg (by rw [sub_self]; exact not_le.mpr (by exact_mod_cast h4))]
  simp [run, loop, initState, hchk]

/-- Witness for C9: the accumulation statement evaluated at the default
limits and the 1000/1000-token usage gives exactly 0.018. -/
theorem estimate_cost_spec_witness :
    (run defaultLimits trivialTools (fun _ => ⟨.end_turn, [.text "ok"], ⟨1000, 1000⟩⟩)
        (fun _ => 0) "task" 0).stats_total_cost = 18 / 1000 :=
  (estimate_cost_spec.2.2 defaultLimits trivialTools ⟨1000, 1000⟩ "task" "ok" 0
      (by decide) (by decide) (by norm_num [defaultLimits]) (by decide)).trans
    estimate_cost_spec.2.1

/-! ## Claims about the SQL auto-fix of the query tool (C8) -/

/-- Claim C8: the sandboxed query tool, given a pure-read query (contains
SELECT) lacking a row limit, appends the default LIMIT 1000 cap and executes
the capped query rather than rejecting; and this is independent of the
loop-level rejection, which fires before the tool is invoked — a query
failing validate_sql aborts the request processing with the tool never
executed and its counter unchanged. -/
theorem sql_autofix_spec :
    (∀ (t : AgentTools) (input : ToolInput) (q : String),
        input.lookup "query" = some q →
        containsSub "LIMIT".toList (upperChars q) = false →
        containsSub "SELECT".toList (upperChars q) = true →
        AgentTools.executeSqlQuery t input =
          t.sqlite_run
            ((pyRstrip (fun c => c.isWhitespace)
                (pyRstrip (fun c => c == ';') q.toList)).asString ++ " LIMIT 1000")
            input)
    ∧ (∀ (tools : AgentTools) (limits : AgentLimits) (stats : AgentStats)
        (id : String) (input : ToolInput) (q : String) (rest : List ContentBlock)
        (e : LimitErr),
        input.lookup "query" = some q →
        checkToolLimit "execute_sql_query" stats limits = none →
        validateSql q limits = some e →
        processTools tools limits stats (.toolUse id "execute_sql_query" input :: rest) =
          (stats, .error e)) := by
  constructor
  · intro t input q hq hlim hsel
    simp only [AgentTools.executeSqlQuery, hq, autoFixQuery, hlim, hsel]
    simp
  · intro tools limits stats id input q rest e hq hchk hval
    simp only [processTools, hchk, hq, hval]
    simp [hval]

/-- Witness for C8: a concrete uncapped SELECT is executed with LIMIT 1000
appended. -/
theorem sql_autofix_spec_witness :
    AgentTools.executeSqlQuery trivialTools [("query", "SELECT * FROM vendite")] =
      trivialTools.sqlite_run
        ((pyRstrip (fun c => c.isWhitespace)
            (pyRstrip (fun c => c == ';') "SELECT * FROM vendite".toList)).asString
          ++ " LIMIT 1000") [("query", "SELECT * FROM vendite")] :=
  sql_autofix_spec.1 trivialTools [("query", "SELECT * FROM vendite")]
    "SELECT * FROM vendite" rfl (by decide) (by decide)

/-! ## Loop-level helper lemmas -/

/-- checkLimits passes when every threshold strictly dominates its
counter. -/
theorem checkLimits_none_of {s : AgentStats} {l : AgentLimits} {now : ℚ}
    (h1 : s.iterations < l.max_iterations) (h2 : s.claude_calls < l.max_claude_calls)
    (h3 : s.total_cost < l.max_total_cost)
    (h4 : s.elapsed_time now < (l.max_time_seconds : ℚ)) :
    checkLimits s l now = none := by
  simp only [checkLimits]
  rw [if_neg (by omega), if_neg (by omega), if_neg (not_le.mpr h3),
    if_neg (not_le.mpr h4)]

/-- A passing global check implies the iteration counter is still below its
limit. -/
theorem checkLimits_none_lt {s : AgentStats} {l : AgentLimits} {now : ℚ}
    (h : checkLimits s l now = none) : s.iterations < l.max_iterations := by
  by_contra hc
  simp only [checkLimits] at h
  rw [if_pos (by omega)] at h
  cases h

/-! ## Claims about limit-terminated runs (C1) and max_iterations = 0 (C3) -/

/-- Claim C1 (amended): a run terminated by any LimitExceeded condition
returns normally with the explanatory "Agent fermato" text as its response,
but with success = true, not false: run() computes success as
final_response is not None, and the LimitExceededError handler sets
final_response to the explanatory message. -/
theorem run_limited_outcome :
    ∀ (limits : AgentLimits) (tools : AgentTools) (script : Nat → ModelResponse)
      (clock : Nat → ℚ) (task : String) (start : ℚ) (e : LimitErr),
      (loop limits tools script clock (limits.max_iterations + 1)
          (initState task start)).exit = .limited e →
      (run limits tools script clock task start).success = true ∧
      (run limits tools script clock task start).response =
        some ("Agent fermato: " ++ e.message) := by
  intro limits tools script clock task start e h
  simp only [run]
  rw [h]
  simp [finalResponseOf]

/-- Witness for C1 at a concrete limit-terminated run. -/
theorem run_limited_outcome_witness :
    (run zeroIterLimits trivialTools (fun _ => ⟨.end_turn, [], ⟨0, 0⟩⟩) (fun _ => 0)
        "t" 0).success = true ∧
      (run zeroIterLimits trivialTools (fun _ => ⟨.end_turn, [], ⟨0, 0⟩⟩) (fun _ => 0)
          "t" 0).response =
        some ("Agent fermato: " ++ (LimitErr.iterations 0).message) :=
  run_limited_outcome zeroIterLimits trivialTools (fun _ => ⟨.end_turn, [], ⟨0, 0⟩⟩)
    (fun _ => 0) "t" 0 (.iterations 0) rfl

/-- Counterexample to C1 as stated: a concrete run terminated by the
iterations LimitExceeded condition whose outcome nevertheless has
success = true (the claim predicts success = false there). -/
theorem run_limited_success_counterexample :
    (loop zeroIterLimits trivialTools (fun _ => ⟨.end_turn, [], ⟨0, 0⟩⟩) (fun _ => 0)
        (zeroIterLimits.max_iterations + 1) (initState "t" 0)).exit =
      .limited (.iterations 0) ∧
    (run zeroIterLimits trivialTools (fun _ => ⟨.end_turn, [], ⟨0, 0⟩⟩) (fun _ => 0)
        "t" 0).success = true :=
  ⟨rfl, rfl⟩

/-- Claim C3: with max_iterations = 0 the loop aborts with the iterations
LimitExceeded on its very first pass — the global check runs after the
iteration bump and before the model call — so the run performs zero model
calls and records exactly one iteration. -/
theorem zero_iterations_spec :
    ∀ (limits : AgentLimits) (tools : AgentTools) (script : Nat → ModelResponse)
      (clock : Nat → ℚ) (task : String) (start : ℚ),
      limits.max_iterations = 0 →
      (loop limits tools script clock (limits.max_iterations + 1)
          (initState task start)).exit = .limited (.iterations 0) ∧
      (run limits tools script clock task start).stats_claude_calls = 0 ∧
      (run limits tools script clock task start).stats_iterations = 1 := by
  intro limits tools script clock task start h
  have hchk : ∀ (s : AgentStats) (now : ℚ), s.iterations = 1 →
      checkLimits s limits now = some (.iterations limits.max_iterations) := by
    intro s now hs
    simp only [checkLimits]
    rw [if_pos (by omega)]
  refine ⟨?_, ?_, ?_⟩ <;> simp [run, loop, initState, hchk, h]

/-- Witness for C3 at the concrete zero-iteration limits. -/
theorem zero_iterations_spec_witness :
    (loop zeroIterLimits trivialTools (fun _ => ⟨.end_turn, [], ⟨0, 0⟩⟩) (fun _ => 0)
        (zeroIterLimits.max_iterations + 1) (initState "t" 0)).exit =
      .limited (.iterations 0) ∧
    (run zeroIterLimits trivialTools (fun _ => ⟨.end_turn, [], ⟨0, 0⟩⟩) (fun _ => 0)
        "t" 0).stats_claude_calls = 0 ∧
    (run zeroIterLimits trivialTools (fun _ => ⟨.end_turn, [], ⟨0, 0⟩⟩) (fun _ => 0)
        "t" 0).stats_iterations = 1 :=
  zero_iterations_spec zeroIterLimits trivialTools (fun _ => ⟨.end_turn, [], ⟨0, 0⟩⟩)
    (fun _ => 0) "t" 0 rfl

/-- processTools only touches the tool counters: iterations and model-call
counters pass through unchanged. -/
theorem processTools_stats_base (tools : AgentTools) (limits : AgentLimits) :
    ∀ (blocks : List ContentBlock) (stats : AgentStats),
      (processTools tools limits stats blocks).1.claude_calls = stats.claude_calls ∧
      (processTools tools limits stats blocks).1.iterations = stats.iterations := by
  intro blocks
  induction blocks with
  | nil => intro stats; simp [processTools]
  | cons b rest ih =>
    intro stats
    cases b with
    | text s => simpa [processTools] using ih stats
    | toolResult a c => simpa [processTools] using ih stats
    | toolUse id name input =>
      simp only [processTools]
      split
      · simp
      · split
        · simp
        · split
          · rename_i stats2 e heq
            have h := ih { stats with tool_calls := bumpCount stats.tool_calls name }
            rw [heq] at h
            simpa using h
          · rename_i stats2 blocks2 heq
            have h := ih { stats with tool_calls := bumpCount stats.tool_calls name }
            rw [heq] at h
            simpa using h

/-- Within one pass budget, the number of model calls recorded by the loop
can grow by at most the remaining iteration headroom: the iteration counter
is bumped before the global check, which refuses once it reaches
max_iterations, and each surviving pass makes exactly one model call. -/
theorem loop_claude_calls_bound (limits : AgentLimits) (tools : AgentTools)
    (script : Nat → ModelResponse) (clock : Nat → ℚ) :
    ∀ (fuel : Nat) (st : LoopSt),
      (loop limits tools script clock fuel st).stats.claude_calls ≤
        st.stats.claude_calls + (limits.max_iterations - 1 - st.stats.iterations) := by
  intro fuel
  induction fuel with
  | zero => intro st; simp [loop]
  | succ n ih =>
    intro st
    simp only [loop]
    split
    · rename_i e heq
      simp
    · rename_i heq
      have hlt : st.stats.iterations + 1 < limits.max_iterations := by
        have := checkLimits_none_lt heq
        simpa using this
      split
      · split
        · simp; omega
        · simp; omega
      · split
        · rename_i stats3 e heq2
          have h := processTools_stats_base tools limits
            ((script st.stats.claude_calls).content.filter isToolUseBlock)
            { st.stats with
              iterations := st.stats.iterations + 1
              claude_calls := st.stats.claude_calls + 1
              total_cost := st.stats.total_cost +
                estimateCost (script st.stats.claude_calls).usage }
          rw [heq2] at h
          simp only [LoopOut.stats]
          simp at h
          omega
        · rename_i stats3 results heq2
          have h := processTools_stats_base tools limits
            ((script st.stats.claude_calls).content.filter isToolUseBlock)
            { st.stats with
              iterations := st.stats.iterations + 1
              claude_calls := st.stats.claude_calls + 1
              total_cost := st.stats.total_cost +
                estimateCost (script st.stats.claude_calls).usage }
          rw [heq2] at h
          simp at h
          have hb := ih ⟨stats3, st.conversation ++
            [⟨"assistant", .blocks (script st.stats.claude_calls).content⟩,
             ⟨"user", .blocks results⟩]⟩
          simp only [LoopSt.stats] at hb
          omega
      · simp; omega

/-- Claim C10: with max_iterations = m at least 1, a run makes at most
m - 1 model calls: the iteration counter is bumped before the global check,
the check refuses once the counter reaches m, and the model call of a pass
happens only after its check passes. -/
theorem run_model_calls_bound :
    ∀ (limits : AgentLimits) (tools : AgentTools) (script : Nat → ModelResponse)
      (clock : Nat → ℚ) (task : String) (start : ℚ),
      1 ≤ limits.max_iterations →
      (run limits tools script clock task start).stats_claude_calls ≤
        limits.max_iterations - 1 := by
  intro limits tools script clock task start _h
  have h := loop_claude_calls_bound limits tools script clock
    (limits.max_iterations + 1) (initState task start)
  simpa [run, initState] using h

/-- Witness for C10 at the default limits. -/
theorem run_model_calls_bound_witness :
    (run defaultLimits trivialTools (fun _ => ⟨.end_turn, [], ⟨0, 0⟩⟩) (fun _ => 0)
        "t" 0).stats_claude_calls ≤ defaultLimits.max_iterations - 1 :=
  run_model_calls_bound defaultLimits trivialTools (fun _ => ⟨.end_turn, [], ⟨0, 0⟩⟩)
    (fun _ => 0) "t" 0 (by decide)

/-! ## Tool-quota invariant lemmas (C4) -/

/-- Bumping one defaultdict counter: the named key goes up by one, every
other key is untouched. -/
theorem toolCount_bumpCount (l : List (String × Nat)) (k x : String) :
    toolCount (bumpCount l k) x = toolCount l x + (if x = k then 1 else 0) := by
  induction l with
  | nil =>
    by_cases hx : x = k
    · subst hx
      simp [bumpCount, toolCount, List.lookup]
    · have hxb : (x == k) = false := beq_eq_false_iff_ne.mpr hx
      simp [bumpCount, toolCount, List.lookup, hxb, hx]
  | cons p rest ih =>
    obtain ⟨a, n⟩ := p
    by_cases hak : a = k
    · subst hak
      by_cases hx : x = a
      · subst hx
        simp [bumpCount, toolCount, List.lookup]
      · have hxb : (x == a) = false := beq_eq_false_iff_ne.mpr hx
        simp [bumpCount, toolCount, List.lookup, hxb, hx]
    · by_cases hx : x = a
      · subst hx
        have hxk : ¬ x = k := hak
        simp [bumpCount, hak, toolCount, List.lookup, hxk]
      · have hxb : (x == a) = false := beq_eq_false_iff_ne.mpr hx
        simp only [bumpCount, if_neg hak]
        simp only [toolCount, List.lookup, hxb]
        simpa [toolCount] using ih

/-- A passing per-tool check means the counter is still under the effective
limit. -/
theorem checkToolLimit_none_lt {name : String} {stats : AgentStats}
    {limits : AgentLimits} (h : checkToolLimit name stats limits = none) :
    toolCount stats.tool_calls name < (limits.tool_limits.lookup name).getD 999 := by
  by_contra hc
  simp only [checkToolLimit] at h
  rw [if_pos (by omega)] at h
  cases h

/-- The quota invariant: every configured tool's counter is within its
configured limit. -/
def QuotaOk (limits : AgentLimits) (l : List (String × Nat)) : Prop :=
  ∀ (t : String) (N : Nat), limits.tool_limits.lookup t = some N → toolCount l t ≤ N

/-- Executing one batch of requested tools preserves the quota invariant:
each execution is guarded by checkToolLimit, so a configured counter is
bumped only while strictly below its limit. -/
theorem processTools_quota (tools : AgentTools) (limits : AgentLimits) :
    ∀ (blocks : List ContentBlock) (stats : AgentStats),
      QuotaOk limits stats.tool_calls →
      QuotaOk limits (processTools tools limits stats blocks).1.tool_calls := by
  intro blocks
  induction blocks with
  | nil => intro stats h; simpa [processTools] using h
  | cons b rest ih =>
    intro stats h
    cases b with
    | text s => simpa [processTools] using ih stats h
    | toolResult a c => simpa [processTools] using ih stats h
    | toolUse id name input =>
      simp only [processTools]
      split
      · simpa using h
      · rename_i hchk
        split
        · simpa using h
        · have hbump : QuotaOk limits (bumpCount stats.tool_calls name) := by
            intro t N hN
            rw [toolCount_bumpCount]
            by_cases ht : t = name
            · subst ht
              have hlt := checkToolLimit_none_lt hchk
              rw [hN] at hlt
              simp only [Option.getD_some] at hlt
              rw [if_pos rfl]
              omega
            · simpa [ht] using h t N hN
          have hrec := ih { stats with tool_calls := bumpCount stats.tool_calls name }
            (by simpa using hbump)
          split
          · rename_i stats2 e heq
            rw [heq] at hrec
            simpa using hrec
          · rename_i stats2 blocks2 heq
            rw [heq] at hrec
            simpa using hrec

/-- The loop preserves the quota invariant across passes. -/
theorem loop_quota (limits : AgentLimits) (tools : AgentTools)
    (script : Nat → ModelResponse) (clock : Nat → ℚ) :
    ∀ (fuel : Nat) (st : LoopSt),
      QuotaOk limits st.stats.tool_calls →
      QuotaOk limits (loop limits tools script clock fuel st).stats.tool_calls := by
  intro fuel
  induction fuel with
  | zero => intro st h; simpa [loop] using h
  | succ n ih =>
    intro st h
    simp only [loop]
    split
    · simpa using h
    · split
      · split
        · simpa using h
        · simpa using h
      · have hq := processTools_quota tools limits
          ((script st.stats.claude_calls).content.filter isToolUseBlock)
          { st.stats with
            iterations := st.stats.iterations + 1
            claude_calls := st.stats.claude_calls + 1
            total_cost := st.stats.total_cost +
              estimateCost (script st.stats.claude_calls).usage }
          (by simpa using h)
        split
        · rename_i stats3 e heq
          rw [heq] at hq
          simpa using hq
        · rename_i stats3 results heq
          rw [heq] at hq
          exact ih _ (by simpa using hq)
      · simpa using h

/-- The tool-counter table of the scripted scenario after k executions of
tool t: empty at 0, else the single entry (t, k). -/
def scenCnt (t : String) : Nat → List (String × Nat)
  | 0 => []
  | k + 1 => [(t, k + 1)]

theorem toolCount_scenCnt (t : String) (k : Nat) : toolCount (scenCnt t k) t = k := by
  cases k with
  | zero => simp [scenCnt, toolCount, List.lookup]
  | succ m => simp [scenCnt, toolCount, List.lookup]

theorem bumpCount_scenCnt (t : String) (k : Nat) :
    bumpCount (scenCnt t k) t = scenCnt t (k + 1) := by
  cases k with
  | zero => simp [scenCnt, bumpCount]
  | succ m => simp [scenCnt, bumpCount]

theorem estimateCost_zero : estimateCost ⟨0, 0⟩ = 0 := by
  simp [estimateCost]

/-- Running the scenario loop from the state reached after k quota-checked
executions of tool t (k at most N): the loop keeps requesting t, executes it
until its counter reaches the limit N, and the (N+1)-th request trips the
quota check, aborting with the tool_quota error after exactly N+1 model
calls and N executions. -/
theorem scenario_loop_exit (t : String) (N : Nat) (tools : AgentTools) :
    ∀ (fuel k : Nat) (conv : List Message), k ≤ N → N + 1 - k ≤ fuel →
      (loop (scenarioLimits t N) tools (repeatToolScript t) (fun _ => 0) fuel
          ⟨⟨k, k, 0, scenCnt t k, 0⟩, conv⟩).exit = .limited (.toolQuota t N N) ∧
      (loop (scenarioLimits t N) tools (repeatToolScript t) (fun _ => 0) fuel
          ⟨⟨k, k, 0, scenCnt t k, 0⟩, conv⟩).stats =
        ⟨N + 1, N + 1, 0, scenCnt t N, 0⟩ := by
  intro fuel
  induction fuel with
  | zero => intro k conv hk hf; omega
  | succ n ih =>
    intro k conv hk hf
    have hchk : checkLimits ⟨k + 1, k, 0, scenCnt t k, 0⟩ (scenarioLimits t N) 0 = none :=
      checkLimits_none_of (by show k + 1 < N + 2; omega) (by show k < N + 2; omega)
        (by show (0 : ℚ) < 1; norm_num)
        (by show (0 : ℚ) - 0 < ((1 : Nat) : ℚ); norm_num)
    have hlook : (scenarioLimits t N).tool_limits.lookup t = some N := by
      show List.lookup t [(t, N)] = some N
      simp [List.lookup]
    by_cases hkN : k = N
    · subst hkN
      have hquota : checkToolLimit t ⟨k + 1, k + 1, 0, scenCnt t k, 0⟩
          (scenarioLimits t k) = some (.toolQuota t k k) := by
        simp only [checkToolLimit, hlook, Option.getD_some, toolCount_scenCnt]
        rw [if_pos (le_refl k)]
      simp [loop, hchk, repeatToolScript, isToolUseBlock, processTools, hquota,
        estimateCost_zero]
    · have hnone : checkToolLimit t ⟨k + 1, k + 1, 0, scenCnt t k, 0⟩
          (scenarioLimits t N) = none := by
        simp only [checkToolLimit, hlook, Option.getD_some, toolCount_scenCnt]
        rw [if_neg (by omega)]
      have hrec := ih (k + 1)
        (conv ++ [⟨"assistant", .blocks [.toolUse "tu" t []]⟩,
          ⟨"user", .blocks [.toolResult "tu"
            (dumpResult (executeTool tools t []))]⟩])
        (by omega) (by omega)
      simp only [loop, hchk, repeatToolScript, isToolUseBlock, processTools, hnone,
        estimateCost_zero, bumpCount_scenCnt, List.filter, add_zero, zero_add,
        List.lookup_nil, Option.isSome_none, Bool.and_false]
      convert hrec using 2

/-- Claim C4: (a) for every tool with a configured per-tool limit N the
tool counter of any run never exceeds N; (b) a tool whose running count
equals its configured limit is never executed — its request aborts the batch
at the quota check, with the stats unchanged; (c) on a scripted backend
requesting tool t once per turn with per-tool limit N, the run aborts with
the tool_quota error exactly at the (N+1)-th request — after N+1 model
calls — having executed t exactly N times. -/
theorem tool_quota_spec :
    (∀ (limits : AgentLimits) (tools : AgentTools) (script : Nat → ModelResponse)
        (clock : Nat → ℚ) (task : String) (start : ℚ) (t : String) (N : Nat),
        limits.tool_limits.lookup t = some N →
        toolCount (run limits tools script clock task start).stats_tool_calls t ≤ N)
    ∧ (∀ (tools : AgentTools) (limits : AgentLimits) (stats : AgentStats)
        (id name : String) (input : ToolInput) (rest : List ContentBlock) (N : Nat),
        limits.tool_limits.lookup name = some N →
        toolCount stats.tool_calls name = N →
        processTools tools limits stats (.toolUse id name input :: rest) =
          (stats, .error (.toolQuota name N N)))
    ∧ (∀ (t : String) (N : Nat) (tools : AgentTools) (task : String),
        (loop (scenarioLimits t N) tools (repeatToolScript t) (fun _ => 0)
            ((scenarioLimits t N).max_iterations + 1) (initState task 0)).exit =
          .limited (.toolQuota t N N) ∧
        (run (scenarioLimits t N) tools (repeatToolScript t) (fun _ => 0)
            task 0).stats_claude_calls = N + 1 ∧
        toolCount (run (scenarioLimits t N) tools (repeatToolScript t) (fun _ => 0)
            task 0).stats_tool_calls t = N) := by
  refine ⟨?_, ?_, ?_⟩
  · intro limits tools script clock task start t N hN
    have hinit : QuotaOk limits (initState task start).stats.tool_calls := by
      intro t' N' _
      simp [initState, toolCount]
    have h := loop_quota limits tools script clock (limits.max_iterations + 1)
      (initState task start) hinit t N hN
    simpa [run] using h
  · intro tools limits stats id name input rest N hN hcount
    have hq : checkToolLimit name stats limits = some (.toolQuota name N N) := by
      simp only [checkToolLimit, hN, Option.getD_some, hcount]
      rw [if_pos (le_refl N)]
    simp [processTools, hq]
  · intro t N tools task
    have key := scenario_loop_exit t N tools ((scenarioLimits t N).max_iterations + 1)
      0 [⟨"user", .str task⟩] (Nat.zero_le N)
      (by show N + 1 - 0 ≤ N + 2 + 1; omega)
    rw [show scenCnt t 0 = [] from rfl] at key
    refine ⟨key.1, ?_, ?_⟩
    · simp only [run, initState]
      rw [key.2]
    · simp only [run, initState]
      rw [key.2]
      exact toolCount_scenCnt t N

/-- Witness for C4: at quota 0, the very first request of an unexecuted tool
aborts the batch with the quota error, leaving the stats untouched. -/
theorem tool_quota_spec_witness :
    processTools trivialTools (scenarioLimits "x" 0) ⟨0, 0, 0, [], 0⟩
        [.toolUse "i" "x" []] =
      (⟨0, 0, 0, [], 0⟩, .error (.toolQuota "x" 0 0)) :=
  tool_quota_spec.2.1 trivialTools (scenarioLimits "x" 0) ⟨0, 0, 0, [], 0⟩
    "i" "x" [] [] 0 (by simp [scenarioLimits, List.lookup]) (by simp [toolCount])

end EtlAgent
